import Mathlib

/-!
Shallow embedding of the HDF5-conversion pipeline in
`src/data/generate_hdf5.py` (repository Huisouan/RoboticsDiffusionTransformer).

The pipeline converts per-episode parquet tables plus per-camera videos into
HDF5 containers.  We model:

* a decoded video frame (`Frame`) by its shape triple and pixel payload;
* `read_video` (lines 88-114): decode, HWC→CHW transpose, `np.stack`,
  shape assertion, with every exception caught and turned into the empty
  result `[]` (the `np.empty((0,3,480,640))` return);
* a parquet table (`ParquetTable`) as an association list of named columns,
  each column a list of per-row numeric vectors;
* `process_episode` (lines 117-228), staged exactly as the source is:
  column lookup and shape validation (`parseEpisode`, lines 120-155),
  directory creation and output-existence skip (lines 164-172),
  primary-camera fallback (`fallbackPrimary`, lines 174-198),
  wrist-camera reads (lines 200-208), the step-count assertions
  (lines 210-214) and the final `create_hdf5_file` call (`finalize`);
* `create_hdf5_file` (lines 9-83) producing an `HDF5File` record;
* `main` (lines 230-239) as `runBatch`: a plain loop over episodes with
  NO exception handler, so a raised per-episode error aborts the whole run.

Exceptions are modelled as `EpisodeOutcome.fatal`; the filesystem is a
`World` (the set of existing files and the raw decodable video content at
each path).  `EpisodeResult.dirCreated` records whether `os.makedirs` on the
episode output directory was reached.
-/

namespace GenHDF5

/-- A decoded video frame: its numpy shape (a triple of dimensions) and its
pixel payload.  `imageio` yields frames in HWC layout, shape (480, 640, 3). -/
structure Frame where
  shape : Nat × Nat × Nat
  pix : List Int
deriving DecidableEq

/-- Model of `frame.transpose(2, 0, 1)`: HWC (h, w, c) becomes CHW (c, h, w). -/
def transposeFrame (f : Frame) : Frame :=
  { f with shape := (f.shape.2.2, f.shape.1, f.shape.2.1) }

/-- The fixed frame-shape contract asserted at line 108: `(3, 480, 640)`. -/
def targetShape : Nat × Nat × Nat := (3, 480, 640)

/-- Model of `read_video` (lines 88-114).  The input models the raw decode result at
the path: `none` for a missing file or codec error (the `get_reader` /
iteration raising), `some frames` for a successful decode into HWC frames.
Every frame is transposed to CHW; `np.stack` raises on an empty frame list,
and the assertion `frames_array.shape[1:] == (3, 480, 640)` raises on any
other shape.  Every exception is caught (line 112) and converted to the
empty result, so the function is total and failure is exactly `[]`. -/
def read_video (raw : Option (List Frame)) : List Frame :=
  match raw with
  | none => []
  | some frames =>
    match frames with
    | [] => []
    | _ :: _ =>
      let t := frames.map transposeFrame
      if t.all (fun f => decide (f.shape = targetShape)) then t else []

/-- A parquet table: named columns in order; each column holds one numeric
vector per row. -/
structure ParquetTable where
  columns : List (String × List (List Int))
deriving DecidableEq

/-- Model of `table.column_names`. -/
def ParquetTable.columnNames (t : ParquetTable) : List String :=
  t.columns.map Prod.fst

/-- Model of `names.index(col)` followed by `table.columns[idx]`: the first column
bearing the given name, if any. -/
def ParquetTable.getCol (t : ParquetTable) (name : String) :
    Option (List (List Int)) :=
  (t.columns.find? (fun c => c.1 == name)).map Prod.snd

/-- Every column of an actual `pyarrow` table has exactly `table.num_rows`
rows. -/
def ParquetTable.WellFormed (t : ParquetTable) (numRows : Nat) : Prop :=
  ∀ c ∈ t.columns, c.2.length = numRows

/-- Predicate for when `np.array([np.array(item) for item in col])` is 2-dimensional exactly
when the column is nonempty and all its row vectors share one length
(an empty column gives shape `(0,)`; ragged rows give an object array). -/
def isTwoDim : List (List Int) → Bool
  | [] => false
  | r :: rest => rest.all (fun s => s.length == r.length)

/-- The common row-vector length (`arr.shape[1]`) of a 2-D column. -/
def width : List (List Int) → Nat
  | [] => 0
  | r :: _ => r.length

/-- The 28 channel names attached to the state dataset (lines 42-52). -/
def stateNames : List String :=
  ["kLeftShoulderPitch", "kLeftShoulderRoll", "kLeftShoulderYaw",
   "kLeftElbow", "kLeftWristRoll", "kLeftWristPitch", "kLeftWristYaw",
   "kRightShoulderPitch", "kRightShoulderRoll", "kRightShoulderYaw",
   "kRightElbow", "kRightWristRoll", "kRightWristPitch", "kRightWristYaw",
   "kLeftHandThumb0", "kLeftHandThumb1", "kLeftHandThumb2",
   "kLeftHandMiddle0", "kLeftHandMiddle1", "kLeftHandIndex0",
   "kLeftHandIndex1", "kRightHandThumb0", "kRightHandThumb1",
   "kRightHandThumb2", "kRightHandIndex0", "kRightHandIndex1",
   "kRightHandMiddle0", "kRightHandMiddle1"]

/-- The `episode_data` dict assembled in `process_episode`. -/
structure EpisodeData where
  qpos : List (List Int)
  action : List (List Int)
  images : List (String × List Frame)

/-- The written HDF5 container: the `observation/qpos` dataset with its
`names` attribute, the camera datasets under `observation/images` in
creation order, and the root-level `action` dataset with its `names`
attribute. -/
structure HDF5File where
  qpos : List (List Int)
  qposNames : List String
  imageDatasets : List (String × List Frame)
  action : List (List Int)
  actionNames : List String
deriving DecidableEq

/-- Python dict subscription `d[k]`: the value, or a `KeyError k`. -/
def dictGet {α : Type} (d : List (String × α)) (k : String) :
    Except String α :=
  match d.find? (fun c => c.1 == k) with
  | some c => .ok c.2
  | none => .error k

/-- Model of `create_hdf5_file` (lines 9-83): writes `qpos` with the 28 channel
names, then the three camera datasets `cam_right_high`, `cam_left_wrist`,
`cam_right_wrist` (line 58) each looked up in `episode_data['images']`,
then `action` whose `names` attribute is copied from the state dataset
(line 83). -/
def create_hdf5_file (d : EpisodeData) : Except String HDF5File := do
  let crh ← dictGet d.images "cam_right_high"
  let clw ← dictGet d.images "cam_left_wrist"
  let crw ← dictGet d.images "cam_right_wrist"
  pure { qpos := d.qpos
         qposNames := stateNames
         imageDatasets :=
           [("cam_right_high", crh), ("cam_left_wrist", clw),
            ("cam_right_wrist", crw)]
         action := d.action
         actionNames := stateNames }

/-- The filesystem as the pipeline sees it: which file paths exist, and the
raw decodable video content at each path (`none` = missing or undecodable). -/
structure World where
  existingFiles : List String
  videoAt : String → Option (List Frame)

/-- The per-episode exceptions `process_episode` can raise:
`KeyError` for a missing parquet column (line 135), the `assert`s on
dimensionality and column count (lines 146-151), the step-count `assert`
(lines 212-214), and dict `KeyError` inside `create_hdf5_file`. -/
inductive EpisodeError where
  | missingColumn (missing : String) (available : List String)
  | notTwoDim (which : String)
  | badWidth (which : String)
  | stepMismatch (cam : String) (steps actual : Nat)
  | keyError (key : String)
deriving DecidableEq

/-- How `process_episode` ends for one episode. -/
inductive EpisodeOutcome where
  /-- an uncaught exception propagates out of `process_episode` -/
  | fatal (e : EpisodeError)
  /-- the output file already exists: early `return` at line 172 -/
  | skipped
  /-- both primary videos failed to decode: early `return` at line 198 -/
  | abortedNoVideo
  /-- the call to `create_hdf5_file` ran and wrote this container -/
  | written (f : HDF5File)
deriving DecidableEq

/-- Result of one `process_episode` call: the outcome, whether
`os.makedirs(episode_output_dir)` (line 166) was reached, and whether the
left-for-right substitution warning (line 194) was printed. -/
structure EpisodeResult where
  outcome : EpisodeOutcome
  dirCreated : Bool
  substituted : Bool
deriving DecidableEq

/-- Model of the video path join at lines 174-178 and 203-207. -/
def videoPath (root cam name : String) : String :=
  root ++ "/" ++ ("observation.images." ++ cam) ++ "/" ++ (name ++ ".mp4")

/-- Model of the output path join at lines 165-167. -/
def outputPath (base name : String) : String :=
  base ++ "/" ++ name ++ "/" ++ (name ++ ".hdf5")

/-- Lines 120-155 of `process_episode`: locate the two required columns
(raising `KeyError` with the available names if either is absent), densify,
and assert 2-dimensionality and 28 columns for each, state first. -/
def parseEpisode (t : ParquetTable) :
    Except EpisodeError (List (List Int) × List (List Int)) :=
  let names := t.columnNames
  match t.getCol "observation.state" with
  | none => .error (.missingColumn "observation.state" names)
  | some stateRows =>
    match t.getCol "action" with
    | none => .error (.missingColumn "action" names)
    | some actionRows =>
      if isTwoDim stateRows then
        if isTwoDim actionRows then
          if width stateRows = 28 then
            if width actionRows = 28 then .ok (stateRows, actionRows)
            else .error (.badWidth "action")
          else .error (.badWidth "state")
        else .error (.notTwoDim "action")
      else .error (.notTwoDim "state")

/-- Lines 174-198: read `cam_right_high`; if it has frames use it
(substituted = false); otherwise read `cam_left_high` and, if that has
frames, use it under the right-high key (substituted = true); if both are
empty, `none` (the episode is aborted). -/
def fallbackPrimary (w : World) (videoRoot name : String) :
    Option (List Frame × Bool) :=
  let rightData := read_video (w.videoAt (videoPath videoRoot "cam_right_high" name))
  if rightData.length > 0 then some (rightData, false)
  else
    let leftData := read_video (w.videoAt (videoPath videoRoot "cam_left_high" name))
    if leftData.length > 0 then some (leftData, true) else none

/-- Lines 210-228: the step-count assertions, iterating the images dict in
insertion order (`cam_right_high`, `cam_left_wrist`, `cam_right_wrist`),
then the `create_hdf5_file` call. -/
def finalize (st ac : List (List Int)) (crh clw crw : List Frame)
    (subst : Bool) : EpisodeResult :=
  let steps := st.length
  if crh.length = steps then
    if clw.length = steps then
      if crw.length = steps then
        match create_hdf5_file
            ⟨st, ac, [("cam_right_high", crh), ("cam_left_wrist", clw),
                      ("cam_right_wrist", crw)]⟩ with
        | .error k => ⟨.fatal (.keyError k), true, subst⟩
        | .ok f => ⟨.written f, true, subst⟩
      else ⟨.fatal (.stepMismatch "cam_right_wrist" steps crw.length), true, subst⟩
    else ⟨.fatal (.stepMismatch "cam_left_wrist" steps clw.length), true, subst⟩
  else ⟨.fatal (.stepMismatch "cam_right_high" steps crh.length), true, subst⟩

/-- Lines 174-228: everything after the output-existence check passed. -/
def afterSkipCheck (st ac : List (List Int)) (name videoRoot : String)
    (w : World) : EpisodeResult :=
  match fallbackPrimary w videoRoot name with
  | none => ⟨.abortedNoVideo, true, false⟩
  | some (crh, subst) =>
    let clw := read_video (w.videoAt (videoPath videoRoot "cam_left_wrist" name))
    let crw := read_video (w.videoAt (videoPath videoRoot "cam_right_wrist" name))
    finalize st ac crh clw crw subst

/-- Lines 164-228: `os.makedirs(episode_output_dir)` (so `dirCreated` is
true from here on), the output-existence skip, then the camera stage. -/
def afterParse (st ac : List (List Int)) (name videoRoot baseOut : String)
    (w : World) : EpisodeResult :=
  if w.existingFiles.contains (outputPath baseOut name) then
    ⟨.skipped, true, false⟩
  else afterSkipCheck st ac name videoRoot w

/-- Model of `process_episode` (lines 117-228) for one episode. -/
def process_episode (t : ParquetTable) (name videoRoot baseOut : String)
    (w : World) : EpisodeResult :=
  match parseEpisode t with
  | .error e => ⟨.fatal e, false, false⟩
  | .ok (st, ac) => afterParse st ac name videoRoot baseOut w

/-- State of the batch run: the episodes actually processed (with their
results), the filesystem after the run, and the uncaught exception that
aborted the run, if any. -/
structure BatchState where
  processed : List (String × EpisodeResult)
  world : World
  aborted : Option EpisodeError

/-- The filesystem after a container is written at the episode's output
path. -/
def addOutput (bo n : String) (w : World) : World :=
  { w with existingFiles := outputPath bo n :: w.existingFiles }

/-- Model of `main` (lines 230-239): process each episode in turn.  There is no
`try`/`except` around the `process_episode` call, so a fatal outcome is an
uncaught exception: the run stops there and later episodes are never
processed.  A written container adds its output path to the filesystem. -/
def runBatch (videoRoot baseOut : String) :
    List (ParquetTable × String) → World → BatchState
  | [], w => ⟨[], w, none⟩
  | (t, name) :: rest, w =>
    let r := process_episode t name videoRoot baseOut w
    match r.outcome with
    | .fatal e => ⟨[(name, r)], w, some e⟩
    | .written _ =>
      let b := runBatch videoRoot baseOut rest (addOutput baseOut name w)
      ⟨(name, r) :: b.processed, b.world, b.aborted⟩
    | _ =>
      let b := runBatch videoRoot baseOut rest w
      ⟨(name, r) :: b.processed, b.world, b.aborted⟩

/-- The container `finalize` writes from its validated inputs. -/
def mkFile (st ac : List (List Int)) (crh clw crw : List Frame) : HDF5File :=
  ⟨st, stateNames,
   [("cam_right_high", crh), ("cam_left_wrist", clw),
    ("cam_right_wrist", crw)],
   ac, stateNames⟩

/-- A 28-entry row vector, as the shape contract demands. -/
def sampleRow : List Int := List.replicate 28 0

/-- A one-step episode table with both required columns. -/
def tableGood : ParquetTable :=
  ⟨[("observation.state", [sampleRow]), ("action", [sampleRow])]⟩

/-- A table missing the required `action` column. -/
def tableNoAction : ParquetTable :=
  ⟨[("observation.state", [sampleRow])]⟩

/-- A raw decoded frame in HWC layout, shape (480, 640, 3). -/
def frameHWC : Frame := ⟨(480, 640, 3), [7]⟩

/-- A second distinguishable raw HWC frame. -/
def frameHWC2 : Frame := ⟨(480, 640, 3), [9]⟩

/-- A frame whose shape violates the (3, 480, 640) contract. -/
def frameBad : Frame := ⟨(100, 100, 3), [1]⟩

/-- A filesystem with every video decodable to one good frame. -/
def worldAll : World := ⟨[], fun _ => some [frameHWC]⟩

/-- A filesystem where the primary-right video is missing and the
primary-left video decodes to a distinguishable frame. -/
def worldNoRight : World :=
  ⟨[], fun p =>
    if p = videoPath "videos" "cam_right_high" "ep0" then none
    else if p = videoPath "videos" "cam_left_high" "ep0" then some [frameHWC2]
    else some [frameHWC]⟩

/-- A filesystem where both primary videos are missing. -/
def worldNoPrimary : World :=
  ⟨[], fun p =>
    if p = videoPath "videos" "cam_right_high" "ep0" then none
    else if p = videoPath "videos" "cam_left_high" "ep0" then none
    else some [frameHWC]⟩

/-- A filesystem where the left-wrist video is missing. -/
def worldNoLeftWrist : World :=
  ⟨[], fun p =>
    if p = videoPath "videos" "cam_left_wrist" "ep0" then none
    else some [frameHWC]⟩

lemma getCol_none_of_not_mem {t : ParquetTable} {name : String}
    (h : name ∉ t.columnNames) : t.getCol name = none := by
  unfold ParquetTable.getCol
  rw [List.find?_eq_none.mpr, Option.map_none']
  intro c hc
  simp only [beq_iff_eq]
  intro heq
  exact h (heq ▸ List.mem_map_of_mem Prod.fst hc)

lemma mem_of_getCol_some {t : ParquetTable} {name : String}
    {rows : List (List Int)} (h : t.getCol name = some rows) :
    (name, rows) ∈ t.columns := by
  unfold ParquetTable.getCol at h
  rcases Option.map_eq_some'.mp h with ⟨c, hfind, hsnd⟩
  have hmem := List.mem_of_find?_eq_some hfind
  have hfst : c.1 = name := by
    have := List.find?_some hfind
    simpa [beq_iff_eq] using this
  have : c = (name, rows) := by
    cases c
    simp_all
  exact this ▸ hmem

lemma mem_columnNames_of_getCol_some {t : ParquetTable} {name : String}
    {rows : List (List Int)} (h : t.getCol name = some rows) :
    name ∈ t.columnNames :=
  List.mem_map_of_mem Prod.fst (mem_of_getCol_some h)

lemma create_hdf5_file_literal (st ac : List (List Int))
    (crh clw crw : List Frame) :
    create_hdf5_file
      ⟨st, ac, [("cam_right_high", crh), ("cam_left_wrist", clw),
                ("cam_right_wrist", crw)]⟩ =
      .ok (mkFile st ac crh clw crw) := rfl

lemma finalize_of_lens {st ac : List (List Int)} {crh clw crw : List Frame}
    (subst : Bool) (h1 : crh.length = st.length)
    (h2 : clw.length = st.length) (h3 : crw.length = st.length) :
    finalize st ac crh clw crw subst =
      ⟨.written (mkFile st ac crh clw crw), true, subst⟩ := by
  simp [finalize, h1, h2, h3, create_hdf5_file_literal]

lemma finalize_cases (st ac : List (List Int)) (crh clw crw : List Frame)
    (subst : Bool) :
    (crh.length = st.length ∧ clw.length = st.length ∧
      crw.length = st.length ∧
      finalize st ac crh clw crw subst =
        ⟨.written (mkFile st ac crh clw crw), true, subst⟩) ∨
    (∃ c k, k ≠ st.length ∧
      finalize st ac crh clw crw subst =
        ⟨.fatal (.stepMismatch c st.length k), true, subst⟩) := by
  by_cases h1 : crh.length = st.length
  · by_cases h2 : clw.length = st.length
    · by_cases h3 : crw.length = st.length
      · exact Or.inl ⟨h1, h2, h3, finalize_of_lens subst h1 h2 h3⟩
      · exact Or.inr ⟨"cam_right_wrist", crw.length, h3,
          by simp [finalize, h1, h2, h3]⟩
    · exact Or.inr ⟨"cam_left_wrist", clw.length, h2,
        by simp [finalize, h1, h2]⟩
  · exact Or.inr ⟨"cam_right_high", crh.length, h1, by simp [finalize, h1]⟩

lemma finalize_dirCreated (st ac : List (List Int))
    (crh clw crw : List Frame) (subst : Bool) :
    (finalize st ac crh clw crw subst).dirCreated = true := by
  rcases finalize_cases st ac crh clw crw subst with ⟨_, _, _, h⟩ | ⟨c, k, _, h⟩ <;>
    rw [h]

lemma process_episode_parse_error {t : ParquetTable} {e : EpisodeError}
    (n vr bo : String) (w : World) (h : parseEpisode t = .error e) :
    process_episode t n vr bo w = ⟨.fatal e, false, false⟩ := by
  simp [process_episode, h]

lemma process_episode_parse_ok {t : ParquetTable}
    {st ac : List (List Int)} (n vr bo : String) (w : World)
    (h : parseEpisode t = .ok (st, ac)) :
    process_episode t n vr bo w = afterParse st ac n vr bo w := by
  simp [process_episode, h]

lemma afterParse_contains {st ac : List (List Int)} {n bo : String}
    {w : World} (vr : String)
    (h : w.existingFiles.contains (outputPath bo n) = true) :
    afterParse st ac n vr bo w = ⟨.skipped, true, false⟩ := by
  unfold afterParse
  rw [h]
  rfl

lemma afterParse_not_contains {st ac : List (List Int)} {n bo : String}
    {w : World} (vr : String)
    (h : w.existingFiles.contains (outputPath bo n) = false) :
    afterParse st ac n vr bo w = afterSkipCheck st ac n vr w := by
  unfold afterParse
  rw [h]
  rfl

lemma afterSkipCheck_none {w : World} {vr n : String}
    (st ac : List (List Int)) (h : fallbackPrimary w vr n = none) :
    afterSkipCheck st ac n vr w = ⟨.abortedNoVideo, true, false⟩ := by
  simp [afterSkipCheck, h]

lemma afterSkipCheck_some {w : World} {vr n : String} {crh : List Frame}
    {subst : Bool} (st ac : List (List Int))
    (h : fallbackPrimary w vr n = some (crh, subst)) :
    afterSkipCheck st ac n vr w =
      finalize st ac crh
        (read_video (w.videoAt (videoPath vr "cam_left_wrist" n)))
        (read_video (w.videoAt (videoPath vr "cam_right_wrist" n)))
        subst := by
  simp [afterSkipCheck, h]

lemma read_video_cons (a : Frame) (as : List Frame) :
    read_video (some (a :: as)) =
      if ((a :: as).map transposeFrame).all
          (fun g => decide (g.shape = targetShape)) = true
      then (a :: as).map transposeFrame else [] := rfl

lemma parseEpisode_missing {t : ParquetTable}
    (h : "observation.state" ∉ t.columnNames ∨ "action" ∉ t.columnNames) :
    ∃ m, parseEpisode t = .error (.missingColumn m t.columnNames) := by
  cases hs : t.getCol "observation.state" with
  | none => exact ⟨"observation.state", by simp [parseEpisode, hs]⟩
  | some stRows =>
    have hmem := mem_columnNames_of_getCol_some hs
    have ha : "action" ∉ t.columnNames := h.resolve_left (not_not_intro hmem)
    have ha2 : t.getCol "action" = none := getCol_none_of_not_mem ha
    exact ⟨"action", by simp [parseEpisode, hs, ha2]⟩

lemma process_written_inv {t : ParquetTable} {n vr bo : String} {w : World}
    {f : HDF5File}
    (h : (process_episode t n vr bo w).outcome = .written f) :
    ∃ st ac crh subst,
      parseEpisode t = .ok (st, ac) ∧
      w.existingFiles.contains (outputPath bo n) = false ∧
      fallbackPrimary w vr n = some (crh, subst) ∧
      crh.length = st.length ∧
      (read_video (w.videoAt (videoPath vr "cam_left_wrist" n))).length =
        st.length ∧
      (read_video (w.videoAt (videoPath vr "cam_right_wrist" n))).length =
        st.length ∧
      f = mkFile st ac crh
            (read_video (w.videoAt (videoPath vr "cam_left_wrist" n)))
            (read_video (w.videoAt (videoPath vr "cam_right_wrist" n))) ∧
      (process_episode t n vr bo w).substituted = subst := by
  cases hp : parseEpisode t with
  | error e =>
    rw [process_episode_parse_error n vr bo w hp] at h
    exact absurd h (by simp)
  | ok pr =>
    obtain ⟨st, ac⟩ := pr
    rw [process_episode_parse_ok n vr bo w hp] at h
    rw [process_episode_parse_ok n vr bo w hp]
    cases hc : w.existingFiles.contains (outputPath bo n) with
    | true =>
      rw [afterParse_contains vr hc] at h
      exact absurd h (by simp)
    | false =>
      rw [afterParse_not_contains vr hc] at h
      rw [afterParse_not_contains vr hc]
      cases hf : fallbackPrimary w vr n with
      | none =>
        rw [afterSkipCheck_none st ac hf] at h
        exact absurd h (by simp)
      | some pr2 =>
        obtain ⟨crh, subst⟩ := pr2
        rw [afterSkipCheck_some st ac hf] at h
        rw [afterSkipCheck_some st ac hf]
        rcases finalize_cases st ac crh
            (read_video (w.videoAt (videoPath vr "cam_left_wrist" n)))
            (read_video (w.videoAt (videoPath vr "cam_right_wrist" n)))
            subst with ⟨h1, h2, h3, heq⟩ | ⟨c, k, hk, heq⟩
        · rw [heq] at h
          rw [heq]
          simp only [EpisodeOutcome.written.injEq] at h
          exact ⟨st, ac, crh, subst, rfl, rfl, rfl, h1, h2, h3, h.symm, rfl⟩
        · rw [heq] at h
          exact absurd h (by simp)

/-- C6: the video loader is total — a missing/undecodable input yields the
empty result, a decoded frame whose transposed shape violates the
(3, 480, 640) contract aborts the whole decode to the empty result rather
than being reshaped, and every frame the loader does return has exactly the
contract shape, so the caller detects failure solely by the frame count. -/
theorem read_video_failure_empty :
    read_video none = [] ∧
    (∀ fs f, f ∈ fs → (transposeFrame f).shape ≠ targetShape →
      read_video (some fs) = []) ∧
    (∀ raw g, g ∈ read_video raw → g.shape = targetShape) := by
  refine ⟨rfl, ?_, ?_⟩
  · intro fs f hmem hne
    cases fs with
    | nil => rfl
    | cons a as =>
      have hall : ((a :: as).map transposeFrame).all
          (fun g => decide (g.shape = targetShape)) = false := by
        rw [List.all_eq_false]
        exact ⟨transposeFrame f, List.mem_map_of_mem transposeFrame hmem,
          by simpa using hne⟩
      rw [read_video_cons, hall]
      simp
  · intro raw g hg
    cases raw with
    | none => simp [read_video] at hg
    | some fs =>
      cases fs with
      | nil => simp [read_video] at hg
      | cons a as =>
        cases hall : ((a :: as).map transposeFrame).all
            (fun g => decide (g.shape = targetShape)) with
        | true =>
          rw [read_video_cons, hall, if_pos rfl] at hg
          exact of_decide_eq_true (List.all_eq_true.mp hall g hg)
        | false =>
          rw [read_video_cons, hall] at hg
          simp at hg

/-- Witness for C6 at concrete inputs: a one-frame video of the wrong shape
decodes to the empty result, and a good frame returned by the loader has
the contract shape. -/
theorem read_video_failure_empty_witness :
    read_video (some [frameBad]) = [] ∧
    (transposeFrame frameHWC).shape = targetShape :=
  ⟨read_video_failure_empty.2.1 [frameBad] frameBad (by decide) (by decide),
   read_video_failure_empty.2.2 (some [frameHWC]) (transposeFrame frameHWC)
     (by decide)⟩

/-- C8: if the "observation.state" or the "action" column is absent from the
record file, the episode fails with an error carrying the available column
names, the episode output directory is never created, and no container is
written. -/
theorem missing_column_fatal (t : ParquetTable) (n vr bo : String)
    (w : World)
    (h : "observation.state" ∉ t.columnNames ∨ "action" ∉ t.columnNames) :
    (∃ m, (process_episode t n vr bo w).outcome =
        .fatal (.missingColumn m t.columnNames)) ∧
    (process_episode t n vr bo w).dirCreated = false ∧
    ∀ f, (process_episode t n vr bo w).outcome ≠ .written f := by
  obtain ⟨m, hm⟩ := parseEpisode_missing h
  rw [process_episode_parse_error n vr bo w hm]
  exact ⟨⟨m, rfl⟩, rfl, fun f hf => by simp at hf⟩

/-- Witness for C8: a concrete table lacking the `action` column. -/
theorem missing_column_fatal_witness :
    (∃ m, (process_episode tableNoAction "ep0" "videos" "out" worldAll).outcome =
        .fatal (.missingColumn m tableNoAction.columnNames)) ∧
    (process_episode tableNoAction "ep0" "videos" "out" worldAll).dirCreated
      = false ∧
    ∀ f, (process_episode tableNoAction "ep0" "videos" "out" worldAll).outcome
      ≠ .written f :=
  missing_column_fatal tableNoAction "ep0" "videos" "out" worldAll
    (Or.inr (by decide))

/-- C9: once the parquet columns and shapes validate, the per-episode output
directory creation (line 166) is reached — it precedes the output-existence
check and all video decoding — so even an episode later aborted by a video
decode failure or a step-count mismatch has had its directory created. -/
theorem dir_created_after_parse (t : ParquetTable) (n vr bo : String)
    (w : World) (st ac : List (List Int))
    (h : parseEpisode t = .ok (st, ac)) :
    (process_episode t n vr bo w).dirCreated = true := by
  rw [process_episode_parse_ok n vr bo w h]
  cases hc : w.existingFiles.contains (outputPath bo n) with
  | true => rw [afterParse_contains vr hc]
  | false =>
    rw [afterParse_not_contains vr hc]
    cases hf : fallbackPrimary w vr n with
    | none => rw [afterSkipCheck_none st ac hf]
    | some pr =>
      obtain ⟨crh, subst⟩ := pr
      rw [afterSkipCheck_some st ac hf]
      exact finalize_dirCreated st ac crh
        (read_video (w.videoAt (videoPath vr "cam_left_wrist" n)))
        (read_video (w.videoAt (videoPath vr "cam_right_wrist" n))) subst

/-- Witness for C9: a valid table in a world where both primary videos are
missing — the episode is aborted, yet its directory was created. -/
theorem dir_created_after_parse_witness :
    (process_episode tableGood "ep0" "videos" "out" worldNoPrimary).dirCreated
      = true :=
  dir_created_after_parse tableGood "ep0" "videos" "out" worldNoPrimary
    [sampleRow] [sampleRow] rfl

/-- C10: every written container holds exactly the three camera datasets
`cam_right_high`, `cam_left_wrist`, `cam_right_wrist`, in that order, and
never one named `cam_left_high`. -/
theorem written_dataset_names (t : ParquetTable) (n vr bo : String)
    (w : World) (f : HDF5File)
    (h : (process_episode t n vr bo w).outcome = .written f) :
    f.imageDatasets.map Prod.fst =
      ["cam_right_high", "cam_left_wrist", "cam_right_wrist"] ∧
    "cam_left_high" ∉ f.imageDatasets.map Prod.fst := by
  obtain ⟨st, ac, crh, subst, -, -, -, -, -, -, hf, -⟩ :=
    process_written_inv h
  subst hf
  refine ⟨rfl, ?_⟩
  show "cam_left_high" ∉ ["cam_right_high", "cam_left_wrist", "cam_right_wrist"]
  decide

/-- Witness for C10 at a concrete written episode. -/
theorem written_dataset_names_witness :
    (mkFile [sampleRow] [sampleRow] [transposeFrame frameHWC]
      [transposeFrame frameHWC] [transposeFrame frameHWC]).imageDatasets.map
        Prod.fst =
      ["cam_right_high", "cam_left_wrist", "cam_right_wrist"] ∧
    "cam_left_high" ∉
      (mkFile [sampleRow] [sampleRow] [transposeFrame frameHWC]
        [transposeFrame frameHWC] [transposeFrame frameHWC]).imageDatasets.map
          Prod.fst :=
  written_dataset_names tableGood "ep0" "videos" "out" worldAll
    (mkFile [sampleRow] [sampleRow] [transposeFrame frameHWC]
      [transposeFrame frameHWC] [transposeFrame frameHWC]) rfl

lemma parseEpisode_error_shape {t : ParquetTable} {e : EpisodeError}
    (h : parseEpisode t = .error e) :
    (∃ m av, e = .missingColumn m av) ∨ (∃ s, e = .notTwoDim s) ∨
      (∃ s, e = .badWidth s) := by
  simp only [parseEpisode] at h
  split at h
  · exact Or.inl ⟨_, _, (Except.error.inj h).symm⟩
  · split at h
    · exact Or.inl ⟨_, _, (Except.error.inj h).symm⟩
    · split at h
      · split at h
        · split at h
          · split at h
            · exact absurd h (by simp)
            · exact Or.inr (Or.inr ⟨_, (Except.error.inj h).symm⟩)
          · exact Or.inr (Or.inr ⟨_, (Except.error.inj h).symm⟩)
        · exact Or.inr (Or.inl ⟨_, (Except.error.inj h).symm⟩)
      · exact Or.inr (Or.inl ⟨_, (Except.error.inj h).symm⟩)

lemma parseEpisode_ok_inv {t : ParquetTable} {st ac : List (List Int)}
    (h : parseEpisode t = .ok (st, ac)) :
    t.getCol "observation.state" = some st ∧ t.getCol "action" = some ac ∧
    isTwoDim st = true ∧ isTwoDim ac = true ∧
    width st = 28 ∧ width ac = 28 := by
  simp only [parseEpisode] at h
  split at h
  · exact absurd h (by simp)
  · split at h
    · exact absurd h (by simp)
    · split at h
      · split at h
        · split at h
          · split at h
            · obtain ⟨h1, h2⟩ := Prod.mk.injEq .. ▸ Except.ok.inj h
              subst h1
              subst h2
              exact ⟨by assumption, by assumption, by assumption,
                by assumption, by assumption, by assumption⟩
            · exact absurd h (by simp)
          · exact absurd h (by simp)
        · exact absurd h (by simp)
      · exact absurd h (by simp)

lemma process_stepMismatch_inv {t : ParquetTable} {n vr bo : String}
    {w : World} {c : String} {s k : Nat}
    (h : (process_episode t n vr bo w).outcome =
      .fatal (.stepMismatch c s k)) : s ≠ k := by
  cases hp : parseEpisode t with
  | error e =>
    rw [process_episode_parse_error n vr bo w hp] at h
    have he : e = .stepMismatch c s k := by simpa using h
    subst he
    rcases parseEpisode_error_shape hp with ⟨m, av, he⟩ | ⟨x, he⟩ | ⟨x, he⟩ <;>
      simp at he
  | ok pr =>
    obtain ⟨st, ac⟩ := pr
    rw [process_episode_parse_ok n vr bo w hp] at h
    cases hc : w.existingFiles.contains (outputPath bo n) with
    | true =>
      rw [afterParse_contains vr hc] at h
      simp at h
    | false =>
      rw [afterParse_not_contains vr hc] at h
      cases hf : fallbackPrimary w vr n with
      | none =>
        rw [afterSkipCheck_none st ac hf] at h
        simp at h
      | some pr2 =>
        obtain ⟨crh, subst⟩ := pr2
        rw [afterSkipCheck_some st ac hf] at h
        rcases finalize_cases st ac crh
            (read_video (w.videoAt (videoPath vr "cam_left_wrist" n)))
            (read_video (w.videoAt (videoPath vr "cam_right_wrist" n)))
            subst with ⟨-, -, -, heq⟩ | ⟨c', k', hk, heq⟩
        · rw [heq] at h
          simp at h
        · rw [heq] at h
          have : c' = c ∧ st.length = s ∧ k' = k := by simpa using h
          obtain ⟨-, hs, hkk⟩ := this
          subst hs
          subst hkk
          exact fun hcontra => hk hcontra.symm

/-- C3: a step-count mismatch error always reports two genuinely differing
counts and excludes a write, and every container that is written has every
camera dataset's frame count equal to the state dataset's row count. -/
theorem step_invariant (t : ParquetTable) (n vr bo : String) (w : World) :
    (∀ f, (process_episode t n vr bo w).outcome = .written f →
      ∀ d ∈ f.imageDatasets, d.2.length = f.qpos.length) ∧
    (∀ c s k, (process_episode t n vr bo w).outcome =
        .fatal (.stepMismatch c s k) →
      s ≠ k ∧ ∀ f, (process_episode t n vr bo w).outcome ≠ .written f) := by
  constructor
  · intro f hw
    obtain ⟨st, ac, crh, subst, -, -, -, h1, h2, h3, hfe, -⟩ :=
      process_written_inv hw
    subst hfe
    intro d hd
    simp only [mkFile, List.mem_cons, List.not_mem_nil, or_false] at hd
    rcases hd with rfl | rfl | rfl
    · exact h1
    · exact h2
    · exact h3
  · intro c s k h
    refine ⟨process_stepMismatch_inv h, fun f hf => ?_⟩
    rw [h] at hf
    exact EpisodeOutcome.noConfusion hf

/-- Witness for C3: the written-container half at a fully available world,
and the mismatch half at a world whose left-wrist video is missing. -/
theorem step_invariant_witness :
    (∀ d ∈ (mkFile [sampleRow] [sampleRow] [transposeFrame frameHWC]
        [transposeFrame frameHWC] [transposeFrame frameHWC]).imageDatasets,
      d.2.length = (mkFile [sampleRow] [sampleRow] [transposeFrame frameHWC]
        [transposeFrame frameHWC] [transposeFrame frameHWC]).qpos.length) ∧
    ((1 : Nat) ≠ 0 ∧
      ∀ f, (process_episode tableGood "ep0" "videos" "out"
        worldNoLeftWrist).outcome ≠ .written f) :=
  ⟨(step_invariant tableGood "ep0" "videos" "out" worldAll).1
     (mkFile [sampleRow] [sampleRow] [transposeFrame frameHWC]
       [transposeFrame frameHWC] [transposeFrame frameHWC]) rfl,
   (step_invariant tableGood "ep0" "videos" "out" worldNoLeftWrist).2
     "cam_left_wrist" 1 0 rfl⟩

lemma fallbackPrimary_left {w : World} {vr n : String} {L : List Frame}
    (hr : read_video (w.videoAt (videoPath vr "cam_right_high" n)) = [])
    (hl : read_video (w.videoAt (videoPath vr "cam_left_high" n)) = L)
    (hne : L ≠ []) : fallbackPrimary w vr n = some (L, true) := by
  simp only [fallbackPrimary, hr, hl]
  rw [if_neg (by simp), if_pos (List.length_pos.mpr hne)]

lemma fallbackPrimary_both_fail {w : World} {vr n : String}
    (hr : read_video (w.videoAt (videoPath vr "cam_right_high" n)) = [])
    (hl : read_video (w.videoAt (videoPath vr "cam_left_high" n)) = []) :
    fallbackPrimary w vr n = none := by
  simp only [fallbackPrimary, hr, hl]
  rw [if_neg (by simp), if_neg (by simp)]

lemma finalize_substituted (st ac : List (List Int))
    (crh clw crw : List Frame) (subst : Bool) :
    (finalize st ac crh clw crw subst).substituted = subst := by
  rcases finalize_cases st ac crh clw crw subst with ⟨-, -, -, h⟩ | ⟨c, k, -, h⟩ <;>
    rw [h]

/-- C4: when the primary-right video decodes to zero frames and the
primary-left video decodes to a nonzero frame list L, the episode is marked
substituted and any container it writes stores L as its first (primary
right-high) camera dataset; when both primary decodes yield zero frames,
the episode aborts with no container written. -/
theorem primary_fallback (t : ParquetTable) (n vr bo : String) (w : World)
    (st ac : List (List Int))
    (hp : parseEpisode t = .ok (st, ac))
    (hc : w.existingFiles.contains (outputPath bo n) = false) :
    (∀ L, read_video (w.videoAt (videoPath vr "cam_right_high" n)) = [] →
      read_video (w.videoAt (videoPath vr "cam_left_high" n)) = L → L ≠ [] →
      (process_episode t n vr bo w).substituted = true ∧
      ∀ f, (process_episode t n vr bo w).outcome = .written f →
        f.imageDatasets.head? = some ("cam_right_high", L)) ∧
    (read_video (w.videoAt (videoPath vr "cam_right_high" n)) = [] →
      read_video (w.videoAt (videoPath vr "cam_left_high" n)) = [] →
      (process_episode t n vr bo w).outcome = .abortedNoVideo ∧
      ∀ f, (process_episode t n vr bo w).outcome ≠ .written f) := by
  constructor
  · intro L hr hl hne
    have hf := fallbackPrimary_left hr hl hne
    rw [process_episode_parse_ok n vr bo w hp, afterParse_not_contains vr hc,
      afterSkipCheck_some st ac hf]
    refine ⟨finalize_substituted st ac L _ _ true, ?_⟩
    intro f hw
    rcases finalize_cases st ac L
        (read_video (w.videoAt (videoPath vr "cam_left_wrist" n)))
        (read_video (w.videoAt (videoPath vr "cam_right_wrist" n)))
        true with ⟨-, -, -, heq⟩ | ⟨c, k, -, heq⟩
    · rw [heq] at hw
      have : mkFile st ac L
          (read_video (w.videoAt (videoPath vr "cam_left_wrist" n)))
          (read_video (w.videoAt (videoPath vr "cam_right_wrist" n))) = f := by
        simpa using hw
      subst this
      rfl
    · rw [heq] at hw
      exact absurd hw (by simp)
  · intro hr hl
    have hf := fallbackPrimary_both_fail hr hl
    rw [process_episode_parse_ok n vr bo w hp, afterParse_not_contains vr hc,
      afterSkipCheck_none st ac hf]
    exact ⟨rfl, fun f hw => EpisodeOutcome.noConfusion hw⟩

/-- Witness for C4: in a world whose primary-right video is missing and
whose primary-left video holds a distinguishable frame, the episode is
substituted and the written right-high dataset is the left footage. -/
theorem primary_fallback_witness :
    (process_episode tableGood "ep0" "videos" "out" worldNoRight).substituted
      = true ∧
    (mkFile [sampleRow] [sampleRow] [transposeFrame frameHWC2]
      [transposeFrame frameHWC] [transposeFrame frameHWC]).imageDatasets.head?
      = some ("cam_right_high", [transposeFrame frameHWC2]) := by
  have h := (primary_fallback tableGood "ep0" "videos" "out" worldNoRight
    [sampleRow] [sampleRow] rfl rfl).1 [transposeFrame frameHWC2] rfl rfl
    (by decide)
  exact ⟨h.1, h.2 (mkFile [sampleRow] [sampleRow] [transposeFrame frameHWC2]
    [transposeFrame frameHWC] [transposeFrame frameHWC]) rfl⟩

/-- C7: in a well-formed table every column has the table's row count, so
every written container has its action channel-name attribute equal to the
state one, 28 channel names, and equal state and action row counts. -/
theorem state_action_aligned (t : ParquetTable) (n vr bo : String)
    (w : World) (numRows : Nat) (f : HDF5File)
    (hwf : t.WellFormed numRows)
    (h : (process_episode t n vr bo w).outcome = .written f) :
    f.actionNames = f.qposNames ∧ f.qposNames.length = 28 ∧
    f.qpos.length = f.action.length := by
  obtain ⟨st, ac, crh, subst, hp, -, -, -, -, -, hfe, -⟩ :=
    process_written_inv h
  subst hfe
  obtain ⟨hst, hac, -, -, -, -⟩ := parseEpisode_ok_inv hp
  have h1 : st.length = numRows := hwf _ (mem_of_getCol_some hst)
  have h2 : ac.length = numRows := hwf _ (mem_of_getCol_some hac)
  exact ⟨rfl, rfl, h1.trans h2.symm⟩

/-- Witness for C7 at a concrete one-row table and full video world. -/
theorem state_action_aligned_witness :
    (mkFile [sampleRow] [sampleRow] [transposeFrame frameHWC]
      [transposeFrame frameHWC] [transposeFrame frameHWC]).actionNames =
    (mkFile [sampleRow] [sampleRow] [transposeFrame frameHWC]
      [transposeFrame frameHWC] [transposeFrame frameHWC]).qposNames ∧
    (mkFile [sampleRow] [sampleRow] [transposeFrame frameHWC]
      [transposeFrame frameHWC] [transposeFrame frameHWC]).qposNames.length
      = 28 ∧
    (mkFile [sampleRow] [sampleRow] [transposeFrame frameHWC]
      [transposeFrame frameHWC] [transposeFrame frameHWC]).qpos.length =
    (mkFile [sampleRow] [sampleRow] [transposeFrame frameHWC]
      [transposeFrame frameHWC] [transposeFrame frameHWC]).action.length :=
  state_action_aligned tableGood "ep0" "videos" "out" worldAll 1
    (mkFile [sampleRow] [sampleRow] [transposeFrame frameHWC]
      [transposeFrame frameHWC] [transposeFrame frameHWC])
    (by intro c hc
        simp only [tableGood, List.mem_cons, List.not_mem_nil, or_false] at hc
        rcases hc with rfl | rfl <;> rfl)
    rfl

/-- C2 counterexample: a concrete episode with one state row whose
left-wrist video is missing.  The secondary camera yields zero frames, yet
writing does NOT proceed: the step-count assertion raises a fatal error and
no container is written, refuting the claim at this input. -/
theorem secondary_zero_frames_cex :
    ([sampleRow] : List (List Int)).length = 1 ∧
    read_video (worldNoLeftWrist.videoAt
      (videoPath "videos" "cam_left_wrist" "ep0")) = [] ∧
    (process_episode tableGood "ep0" "videos" "out" worldNoLeftWrist).outcome
      = .fatal (.stepMismatch "cam_left_wrist" 1 0) ∧
    ∀ f, (process_episode tableGood "ep0" "videos" "out"
      worldNoLeftWrist).outcome ≠ .written f := by
  refine ⟨rfl, rfl, rfl, ?_⟩
  intro f hf
  exact EpisodeOutcome.noConfusion
    (show EpisodeOutcome.fatal (.stepMismatch "cam_left_wrist" 1 0) =
      .written f from hf)

/-- C2 amended: a zero-frame secondary camera — whether the left wrist or
the right wrist — does not abort the episode at the camera-read stage, but
when the state array has at least one row the subsequent step-count
assertion raises a fatal step-mismatch error, so no container is written. -/
theorem secondary_zero_frames_fatal (t : ParquetTable) (n vr bo : String)
    (w : World) (st ac : List (List Int)) (crh : List Frame) (subst : Bool)
    (hp : parseEpisode t = .ok (st, ac))
    (hc : w.existingFiles.contains (outputPath bo n) = false)
    (hf : fallbackPrimary w vr n = some (crh, subst))
    (hn : 1 ≤ st.length)
    (hw0 : read_video (w.videoAt (videoPath vr "cam_left_wrist" n)) = [] ∨
           read_video (w.videoAt (videoPath vr "cam_right_wrist" n)) = []) :
    (∃ c k, (process_episode t n vr bo w).outcome =
      .fatal (.stepMismatch c st.length k)) ∧
    ∀ f, (process_episode t n vr bo w).outcome ≠ .written f := by
  rw [process_episode_parse_ok n vr bo w hp, afterParse_not_contains vr hc,
    afterSkipCheck_some st ac hf]
  rcases finalize_cases st ac crh
      (read_video (w.videoAt (videoPath vr "cam_left_wrist" n)))
      (read_video (w.videoAt (videoPath vr "cam_right_wrist" n)))
      subst with ⟨-, h2, h3, -⟩ | ⟨c, k, hk, heq⟩
  · exfalso
    rcases hw0 with h0 | h0
    · rw [h0] at h2
      simp only [List.length_nil] at h2
      omega
    · rw [h0] at h3
      simp only [List.length_nil] at h3
      omega
  · rw [heq]
    exact ⟨⟨c, k, rfl⟩, fun f hf2 => EpisodeOutcome.noConfusion hf2⟩

/-- Witness for the amended C2 at the concrete missing-left-wrist world. -/
theorem secondary_zero_frames_fatal_witness :
    (∃ c k, (process_episode tableGood "ep0" "videos" "out"
        worldNoLeftWrist).outcome =
      .fatal (.stepMismatch c ([sampleRow] : List (List Int)).length k)) ∧
    ∀ f, (process_episode tableGood "ep0" "videos" "out"
      worldNoLeftWrist).outcome ≠ .written f :=
  secondary_zero_frames_fatal tableGood "ep0" "videos" "out" worldNoLeftWrist
    [sampleRow] [sampleRow] [transposeFrame frameHWC] false rfl rfl rfl
    (by decide) (Or.inl rfl)

/-- C1 counterexample: a two-episode batch whose first episode raises a
fatal missing-column error.  The batch run aborts with that error and the
second episode is never processed — the driver does not catch per-episode
errors and does not proceed. -/
theorem batch_abort_cex :
    (runBatch "videos" "out" [(tableNoAction, "ep0"), (tableGood, "ep1")]
      worldAll).aborted =
      some (.missingColumn "action" ["observation.state"]) ∧
    (runBatch "videos" "out" [(tableNoAction, "ep0"), (tableGood, "ep1")]
      worldAll).processed.map Prod.fst = ["ep0"] :=
  ⟨rfl, rfl⟩

/-- C1 amended: the batch driver has no handler around `process_episode`,
so the first episode whose processing raises a fatal error ends the whole
run: exactly that episode is recorded, the filesystem is unchanged, and the
error propagates; the remaining episodes are never processed. -/
theorem batch_fatal_aborts (vr bo : String) (t : ParquetTable) (n : String)
    (rest : List (ParquetTable × String)) (w : World) (e : EpisodeError)
    (h : (process_episode t n vr bo w).outcome = .fatal e) :
    runBatch vr bo ((t, n) :: rest) w =
      ⟨[(n, process_episode t n vr bo w)], w, some e⟩ := by
  simp [runBatch, h]

/-- Witness for the amended C1: a batch headed by an episode with a
missing `action` column aborts at once. -/
theorem batch_fatal_aborts_witness :
    runBatch "videos" "out" [(tableNoAction, "ep0")] worldAll =
      ⟨[("ep0", process_episode tableNoAction "ep0" "videos" "out" worldAll)],
       worldAll, some (.missingColumn "action" ["observation.state"])⟩ :=
  batch_fatal_aborts "videos" "out" tableNoAction "ep0" [] worldAll
    (.missingColumn "action" ["observation.state"]) rfl

lemma contains_true_iff {l : List String} {p : String} :
    l.contains p = true ↔ p ∈ l := by
  simp [List.contains, List.elem_iff]

lemma contains_false_iff {l : List String} {p : String} :
    l.contains p = false ↔ p ∉ l := by
  rw [Bool.eq_false_iff, Ne, contains_true_iff]

lemma process_episode_world_congr {t : ParquetTable} {n vr bo : String}
    {w w' : World} (hv : w.videoAt = w'.videoAt)
    (hc : w.existingFiles.contains (outputPath bo n) =
          w'.existingFiles.contains (outputPath bo n)) :
    process_episode t n vr bo w = process_episode t n vr bo w' := by
  unfold process_episode afterParse afterSkipCheck fallbackPrimary
  rw [hv, hc]

lemma skipped_of_contains {t : ParquetTable} {st ac : List (List Int)}
    {n vr bo : String} {w : World}
    (hp : parseEpisode t = .ok (st, ac))
    (hc : w.existingFiles.contains (outputPath bo n) = true) :
    process_episode t n vr bo w = ⟨.skipped, true, false⟩ := by
  rw [process_episode_parse_ok n vr bo w hp, afterParse_contains vr hc]

lemma afterSkipCheck_not_skipped (st ac : List (List Int))
    (n vr : String) (w : World) :
    (afterSkipCheck st ac n vr w).outcome ≠ .skipped := by
  cases hf : fallbackPrimary w vr n with
  | none =>
    rw [afterSkipCheck_none st ac hf]
    simp
  | some pr =>
    obtain ⟨crh, subst⟩ := pr
    rw [afterSkipCheck_some st ac hf]
    rcases finalize_cases st ac crh
        (read_video (w.videoAt (videoPath vr "cam_left_wrist" n)))
        (read_video (w.videoAt (videoPath vr "cam_right_wrist" n)))
        subst with ⟨-, -, -, h⟩ | ⟨c, k, -, h⟩ <;> rw [h] <;> simp

lemma process_skipped_inv {t : ParquetTable} {n vr bo : String} {w : World}
    (h : (process_episode t n vr bo w).outcome = .skipped) :
    (∃ st ac, parseEpisode t = .ok (st, ac)) ∧
    w.existingFiles.contains (outputPath bo n) = true := by
  cases hp : parseEpisode t with
  | error e =>
    rw [process_episode_parse_error n vr bo w hp] at h
    simp at h
  | ok pr =>
    obtain ⟨st, ac⟩ := pr
    rw [process_episode_parse_ok n vr bo w hp] at h
    cases hc : w.existingFiles.contains (outputPath bo n) with
    | true => exact ⟨⟨st, ac, rfl⟩, rfl⟩
    | false =>
      rw [afterParse_not_contains vr hc] at h
      exact absurd h (afterSkipCheck_not_skipped st ac n vr w)

lemma process_aborted_inv {t : ParquetTable} {n vr bo : String} {w : World}
    (h : (process_episode t n vr bo w).outcome = .abortedNoVideo) :
    (∃ st ac, parseEpisode t = .ok (st, ac)) ∧
    w.existingFiles.contains (outputPath bo n) = false := by
  cases hp : parseEpisode t with
  | error e =>
    rw [process_episode_parse_error n vr bo w hp] at h
    simp at h
  | ok pr =>
    obtain ⟨st, ac⟩ := pr
    rw [process_episode_parse_ok n vr bo w hp] at h
    cases hc : w.existingFiles.contains (outputPath bo n) with
    | true =>
      rw [afterParse_contains vr hc] at h
      simp at h
    | false => exact ⟨⟨st, ac, rfl⟩, rfl⟩

lemma runBatch_world_videoAt (vr bo : String)
    (eps : List (ParquetTable × String)) :
    ∀ w, (runBatch vr bo eps w).world.videoAt = w.videoAt := by
  induction eps with
  | nil => intro w; rfl
  | cons e rest ih =>
    intro w
    obtain ⟨t, n⟩ := e
    cases hout : (process_episode t n vr bo w).outcome with
    | fatal e2 => simp [runBatch, hout]
    | skipped => simpa [runBatch, hout] using ih w
    | abortedNoVideo => simpa [runBatch, hout] using ih w
    | written f => simpa [runBatch, hout] using ih (addOutput bo n w)

lemma runBatch_files_mono (vr bo : String)
    (eps : List (ParquetTable × String)) :
    ∀ w p, p ∈ w.existingFiles →
      p ∈ (runBatch vr bo eps w).world.existingFiles := by
  induction eps with
  | nil => intro w p hp; exact hp
  | cons e rest ih =>
    intro w p hp
    obtain ⟨t, n⟩ := e
    cases hout : (process_episode t n vr bo w).outcome with
    | fatal e2 => simpa [runBatch, hout] using hp
    | skipped => simpa [runBatch, hout] using ih w p hp
    | abortedNoVideo => simpa [runBatch, hout] using ih w p hp
    | written f =>
      have hp2 : p ∈ (addOutput bo n w).existingFiles :=
        List.mem_cons_of_mem _ hp
      simpa [runBatch, hout] using ih (addOutput bo n w) p hp2

lemma runBatch_files_new (vr bo : String)
    (eps : List (ParquetTable × String)) :
    ∀ w p, p ∈ (runBatch vr bo eps w).world.existingFiles →
      p ∈ w.existingFiles ∨ ∃ e ∈ eps, p = outputPath bo e.2 := by
  induction eps with
  | nil => intro w p hp; exact Or.inl hp
  | cons e rest ih =>
    intro w p hp
    obtain ⟨t, n⟩ := e
    cases hout : (process_episode t n vr bo w).outcome with
    | fatal e2 =>
      simp only [runBatch, hout] at hp
      exact Or.inl hp
    | skipped =>
      simp only [runBatch, hout] at hp
      rcases ih w p hp with h | ⟨e2, he2, hpe⟩
      · exact Or.inl h
      · exact Or.inr ⟨e2, List.mem_cons_of_mem _ he2, hpe⟩
    | abortedNoVideo =>
      simp only [runBatch, hout] at hp
      rcases ih w p hp with h | ⟨e2, he2, hpe⟩
      · exact Or.inl h
      · exact Or.inr ⟨e2, List.mem_cons_of_mem _ he2, hpe⟩
    | written f =>
      simp only [runBatch, hout] at hp
      rcases ih (addOutput bo n w) p hp with h | ⟨e2, he2, hpe⟩
      · rcases List.mem_cons.mp h with heq | hmem
        · exact Or.inr ⟨(t, n), List.mem_cons_self _ _, heq⟩
        · exact Or.inl hmem
      · exact Or.inr ⟨e2, List.mem_cons_of_mem _ he2, hpe⟩

/-- C5: once a batch run has completed without an uncaught error, rerunning
the driver over the same episodes (with distinct output paths) against the
filesystem that run produced changes nothing: the filesystem is identical
afterwards, the rerun completes, and every episode is either skipped — its
container already exists and is not overwritten — or aborts again on the
same missing primary videos, writing nothing. -/
theorem rerun_idempotent (vr bo : String)
    (eps : List (ParquetTable × String)) (w : World)
    (hnd : (eps.map (fun e => outputPath bo e.2)).Nodup)
    (hdone : (runBatch vr bo eps w).aborted = none) :
    (runBatch vr bo eps ((runBatch vr bo eps w).world)).world =
      (runBatch vr bo eps w).world ∧
    (runBatch vr bo eps ((runBatch vr bo eps w).world)).aborted = none ∧
    ∀ pr ∈ (runBatch vr bo eps ((runBatch vr bo eps w).world)).processed,
      pr.2.outcome = .skipped ∨ pr.2.outcome = .abortedNoVideo := by
  revert hnd hdone
  induction eps generalizing w with
  | nil =>
    intro hnd hdone
    exact ⟨rfl, rfl, fun pr h => absurd h (List.not_mem_nil pr)⟩
  | cons e rest ih =>
    intro hnd hdone
    obtain ⟨t, n⟩ := e
    have hnd' : (rest.map (fun e => outputPath bo e.2)).Nodup :=
      (List.nodup_cons.mp (by simpa using hnd)).2
    have hhead : outputPath bo n ∉ rest.map (fun e => outputPath bo e.2) :=
      (List.nodup_cons.mp (by simpa using hnd)).1
    cases hout : (process_episode t n vr bo w).outcome with
    | fatal e2 =>
      simp [runBatch, hout] at hdone
    | skipped =>
      obtain ⟨⟨st, ac, hp⟩, hc⟩ := process_skipped_inv hout
      have hdone' : (runBatch vr bo rest w).aborted = none := by
        simpa [runBatch, hout] using hdone
      have hrun1 : runBatch vr bo ((t, n) :: rest) w =
          ⟨(n, process_episode t n vr bo w) ::
             (runBatch vr bo rest w).processed,
           (runBatch vr bo rest w).world,
           (runBatch vr bo rest w).aborted⟩ := by
        simp [runBatch, hout]
      have hc1 : ((runBatch vr bo rest w).world).existingFiles.contains
          (outputPath bo n) = true :=
        contains_true_iff.mpr
          (runBatch_files_mono vr bo rest w _ (contains_true_iff.mp hc))
      have hr' : process_episode t n vr bo ((runBatch vr bo rest w).world) =
          ⟨.skipped, true, false⟩ := skipped_of_contains hp hc1
      have hrun2 : runBatch vr bo ((t, n) :: rest)
          ((runBatch vr bo rest w).world) =
          ⟨(n, process_episode t n vr bo ((runBatch vr bo rest w).world)) ::
             (runBatch vr bo rest
               ((runBatch vr bo rest w).world)).processed,
           (runBatch vr bo rest ((runBatch vr bo rest w).world)).world,
           (runBatch vr bo rest ((runBatch vr bo rest w).world)).aborted⟩ := by
        simp [runBatch, hr']
      obtain ⟨ihw, ihab, ihpr⟩ := ih w hnd' hdone'
      refine ⟨?_, ?_, ?_⟩
      · rw [hrun1]
        show (runBatch vr bo ((t, n) :: rest)
            ((runBatch vr bo rest w).world)).world =
          (runBatch vr bo rest w).world
        rw [hrun2]
        exact ihw
      · rw [hrun1]
        show (runBatch vr bo ((t, n) :: rest)
            ((runBatch vr bo rest w).world)).aborted = none
        rw [hrun2]
        exact ihab
      · intro pr hpr
        rw [hrun1] at hpr
        replace hpr : pr ∈ (runBatch vr bo ((t, n) :: rest)
            ((runBatch vr bo rest w).world)).processed := hpr
        rw [hrun2] at hpr
        replace hpr : pr ∈
            (n, process_episode t n vr bo ((runBatch vr bo rest w).world)) ::
              (runBatch vr bo rest
                ((runBatch vr bo rest w).world)).processed := hpr
        rcases List.mem_cons.mp hpr with heq | htail
        · left
          subst heq
          show (process_episode t n vr bo
            ((runBatch vr bo rest w).world)).outcome = .skipped
          rw [hr']
        · exact ihpr pr htail
    | abortedNoVideo =>
      obtain ⟨⟨st, ac, hp⟩, hc⟩ := process_aborted_inv hout
      have hdone' : (runBatch vr bo rest w).aborted = none := by
        simpa [runBatch, hout] using hdone
      have hrun1 : runBatch vr bo ((t, n) :: rest) w =
          ⟨(n, process_episode t n vr bo w) ::
             (runBatch vr bo rest w).processed,
           (runBatch vr bo rest w).world,
           (runBatch vr bo rest w).aborted⟩ := by
        simp [runBatch, hout]
      have hnotmem : outputPath bo n ∉
          ((runBatch vr bo rest w).world).existingFiles := by
        intro hmem
        rcases runBatch_files_new vr bo rest w _ hmem with
          hmem2 | ⟨e2, he2, hpe⟩
        · exact contains_false_iff.mp hc hmem2
        · exact hhead
            (hpe ▸ List.mem_map_of_mem (fun e => outputPath bo e.2) he2)
      have hc1 : ((runBatch vr bo rest w).world).existingFiles.contains
          (outputPath bo n) = false := contains_false_iff.mpr hnotmem
      have hcongr : process_episode t n vr bo w =
          process_episode t n vr bo ((runBatch vr bo rest w).world) :=
        process_episode_world_congr
          (runBatch_world_videoAt vr bo rest w).symm (hc.trans hc1.symm)
      have hout1 : (process_episode t n vr bo
          ((runBatch vr bo rest w).world)).outcome = .abortedNoVideo := by
        rw [← hcongr]
        exact hout
      have hrun2 : runBatch vr bo ((t, n) :: rest)
          ((runBatch vr bo rest w).world) =
          ⟨(n, process_episode t n vr bo ((runBatch vr bo rest w).world)) ::
             (runBatch vr bo rest
               ((runBatch vr bo rest w).world)).processed,
           (runBatch vr bo rest ((runBatch vr bo rest w).world)).world,
           (runBatch vr bo rest ((runBatch vr bo rest w).world)).aborted⟩ := by
        simp [runBatch, hout1]
      obtain ⟨ihw, ihab, ihpr⟩ := ih w hnd' hdone'
      refine ⟨?_, ?_, ?_⟩
      · rw [hrun1]
        show (runBatch vr bo ((t, n) :: rest)
            ((runBatch vr bo rest w).world)).world =
          (runBatch vr bo rest w).world
        rw [hrun2]
        exact ihw
      · rw [hrun1]
        show (runBatch vr bo ((t, n) :: rest)
            ((runBatch vr bo rest w).world)).aborted = none
        rw [hrun2]
        exact ihab
      · intro pr hpr
        rw [hrun1] at hpr
        replace hpr : pr ∈ (runBatch vr bo ((t, n) :: rest)
            ((runBatch vr bo rest w).world)).processed := hpr
        rw [hrun2] at hpr
        replace hpr : pr ∈
            (n, process_episode t n vr bo ((runBatch vr bo rest w).world)) ::
              (runBatch vr bo rest
                ((runBatch vr bo rest w).world)).processed := hpr
        rcases List.mem_cons.mp hpr with heq | htail
        · right
          subst heq
          exact hout1
        · exact ihpr pr htail
    | written f =>
      obtain ⟨st, ac, crh, subst, hp, -, -, -, -, -, -, -⟩ :=
        process_written_inv hout
      have hdone' : (runBatch vr bo rest (addOutput bo n w)).aborted
          = none := by
        simpa [runBatch, hout] using hdone
      have hrun1 : runBatch vr bo ((t, n) :: rest) w =
          ⟨(n, process_episode t n vr bo w) ::
             (runBatch vr bo rest (addOutput bo n w)).processed,
           (runBatch vr bo rest (addOutput bo n w)).world,
           (runBatch vr bo rest (addOutput bo n w)).aborted⟩ := by
        simp [runBatch, hout]
      have hc1 : ((runBatch vr bo rest (addOutput bo n w)).world).existingFiles.contains
          (outputPath bo n) = true :=
        contains_true_iff.mpr
          (runBatch_files_mono vr bo rest (addOutput bo n w) _
            (List.mem_cons_self _ _))
      have hr' : process_episode t n vr bo
          ((runBatch vr bo rest (addOutput bo n w)).world) =
          ⟨.skipped, true, false⟩ := skipped_of_contains hp hc1
      have hrun2 : runBatch vr bo ((t, n) :: rest)
          ((runBatch vr bo rest (addOutput bo n w)).world) =
          ⟨(n, process_episode t n vr bo
              ((runBatch vr bo rest (addOutput bo n w)).world)) ::
             (runBatch vr bo rest
               ((runBatch vr bo rest (addOutput bo n w)).world)).processed,
           (runBatch vr bo rest
             ((runBatch vr bo rest (addOutput bo n w)).world)).world,
           (runBatch vr bo rest
             ((runBatch vr bo rest (addOutput bo n w)).world)).aborted⟩ := by
        simp [runBatch, hr']
      obtain ⟨ihw, ihab, ihpr⟩ := ih (addOutput bo n w) hnd' hdone'
      refine ⟨?_, ?_, ?_⟩
      · rw [hrun1]
        show (runBatch vr bo ((t, n) :: rest)
            ((runBatch vr bo rest (addOutput bo n w)).world)).world =
          (runBatch vr bo rest (addOutput bo n w)).world
        rw [hrun2]
        exact ihw
      · rw [hrun1]
        show (runBatch vr bo ((t, n) :: rest)
            ((runBatch vr bo rest (addOutput bo n w)).world)).aborted = none
        rw [hrun2]
        exact ihab
      · intro pr hpr
        rw [hrun1] at hpr
        replace hpr : pr ∈ (runBatch vr bo ((t, n) :: rest)
            ((runBatch vr bo rest (addOutput bo n w)).world)).processed := hpr
        rw [hrun2] at hpr
        replace hpr : pr ∈
            (n, process_episode t n vr bo
              ((runBatch vr bo rest (addOutput bo n w)).world)) ::
              (runBatch vr bo rest
                ((runBatch vr bo rest (addOutput bo n w)).world)).processed :=
          hpr
        rcases List.mem_cons.mp hpr with heq | htail
        · left
          subst heq
          show (process_episode t n vr bo
            ((runBatch vr bo rest (addOutput bo n w)).world)).outcome =
              .skipped
          rw [hr']
        · exact ihpr pr htail

/-- Witness for C5: a one-episode batch that writes its container on the
first run; the rerun changes nothing. -/
theorem rerun_idempotent_witness :
    (runBatch "videos" "out" [(tableGood, "ep0")]
      ((runBatch "videos" "out" [(tableGood, "ep0")] worldAll).world)).world =
      (runBatch "videos" "out" [(tableGood, "ep0")] worldAll).world ∧
    (runBatch "videos" "out" [(tableGood, "ep0")]
      ((runBatch "videos" "out" [(tableGood, "ep0")]
        worldAll).world)).aborted = none ∧
    ∀ pr ∈ (runBatch "videos" "out" [(tableGood, "ep0")]
      ((runBatch "videos" "out" [(tableGood, "ep0")]
        worldAll).world)).processed,
      pr.2.outcome = .skipped ∨ pr.2.outcome = .abortedNoVideo :=
  rerun_idempotent "videos" "out" [(tableGood, "ep0")] worldAll
    (List.nodup_singleton _) rfl

end GenHDF5
